import Mathlib

/-!
Shallow embedding of the core algorithms of `scrapbook-annotate`
(`src/main.rs`): the coordinate mapper (`Scaler`), the polygon mask
extractor (`MyApp::extract_image` with `MyApp::ray_intersect`), and the
line reconstructor (`MyApp::merge_lines`, `MyApp::extract_text`).

Modelling conventions:
- `f32` values are modelled as exact rationals (`ℚ`); the algorithms only
  use `+`, `-`, `*`, `/`, comparisons and `signum`, so the rational model
  follows the source arithmetic operation for operation.
- Rust's `f32::signum` returns `1.0` for positive or `+0.0` and `-1.0`
  for negative, so the model maps `0` to `1`.
- `as i32` on an `f32` truncates toward zero; modelled by `truncQ`.
- A Rust panic (`unwrap` on `None`, out-of-bounds slice) is modelled as
  `Option.none` in the function's result.
- `RgbImage` is a row-major flat pixel buffer addressed as
  `data[y * width + x]`, as in the `image` crate.
- Rust `String`s are modelled as `List Char`; the source only splits at
  an ASCII space and strips a final ASCII hyphen, so byte positions and
  character positions delimit the same substrings.
-/

attribute [local semireducible] Rat.add Rat.sub Rat.mul Rat.inv

/-- A 2D point (`Pos2` in the source), coordinates in `ℚ` modelling `f32`. -/
structure P where
  x : ℚ
  y : ℚ
deriving DecidableEq, Repr

/-- One RGB pixel. -/
structure Rgb where
  r : ℕ
  g : ℕ
  b : ℕ
deriving DecidableEq, Repr

/-- An RGB raster: a row-major flat buffer, as in the `image` crate's
`RgbImage`. -/
structure Img where
  width : ℕ
  height : ℕ
  data : List Rgb
deriving DecidableEq, Repr

/-- Model of `RgbImage::get_pixel`: row-major addressing `data[y * width + x]`. -/
def Img.getPixel (img : Img) (x y : ℕ) : Rgb :=
  img.data.getD (y * img.width + x) ⟨0, 0, 0⟩

/-- Rust `f32::signum` on the rational model: `1` for positive or zero
(`+0.0` in Rust), `-1` for negative. -/
def signum (q : ℚ) : ℚ :=
  if q < 0 then -1 else 1

/-- Model of `as i32` on an `f32`: truncation toward zero. -/
def truncQ (q : ℚ) : ℤ :=
  if q < 0 then ⌈q⌉ else ⌊q⌋

/-- Model of `i32::clamp(0, hi) as u32` for a natural upper bound `hi`. -/
def clampNat (n : ℤ) (hi : ℕ) : ℕ :=
  (max 0 (min n (hi : ℤ))).toNat

/-- Model of `MyApp::ray_intersect`: does the horizontal ray from `(ox, oy)` to
`(+∞, oy)` intersect the segment `(ax, ay)--(bx, bY)`?  Translated from
`src/main.rs` lines 225-236. -/
def ray_intersect (ox oy ax ay bx bY : ℚ) : Bool :=
  if signum (ay - oy) = signum (bY - oy) then
    false
  else
    let s0 := signum ((ox - ax) * (bY - ay) + (oy - ay) * (ax - bx))
    let s1 := signum (bY - ay)
    s0 ≠ s1

/-- An edge `(ax, ay, bx, by)` as built by `extract_image` from
consecutive vertices of the closed polygon. -/
abbrev Edge := ℚ × ℚ × ℚ × ℚ

/-- Number of polygon edges crossed by the horizontal ray from `(x, y)`:
the `crossings` count of `extract_image` (lines 260-262). -/
def crossings (edges : List Edge) (x y : ℚ) : ℕ :=
  (edges.filter (fun e => ray_intersect x y e.1 e.2.1 e.2.2.1 e.2.2.2)).length

/-- The parity test of `extract_image` line 263: inside iff the crossing
count is odd. -/
def insideEdges (edges : List Edge) (x y : ℚ) : Bool :=
  crossings edges x y % 2 = 1

/-- The `Scaler` of `src/main.rs` lines 337-342: scale factor, viewport
size, pan offset, and the screen-space rectangle origin of the viewport. -/
structure Scaler where
  scale : ℚ
  viewport : P
  offset : P
  rectLeftTop : P

/-- Model of `Scaler::screen_to_image` (lines 345-347):
`(screen - image_rect.left_top + offset) / scale`, componentwise. -/
def Scaler.screen_to_image (s : Scaler) (screen : P) : P :=
  ⟨(screen.x - s.rectLeftTop.x + s.offset.x) / s.scale,
   (screen.y - s.rectLeftTop.y + s.offset.y) / s.scale⟩

/-- Model of `Scaler::image_to_screen` (lines 349-351):
`image * scale - offset + image_rect.left_top`, componentwise. -/
def Scaler.image_to_screen (s : Scaler) (image : P) : P :=
  ⟨image.x * s.scale - s.offset.x + s.rectLeftTop.x,
   image.y * s.scale - s.offset.y + s.rectLeftTop.y⟩

/-- Minimum over all `x` coordinates of the vertex list `v0 :: rest`
(the `min_by(cmp_f32)` fold at line 239; nonempty, so no panic). -/
def bbMinX (v0 : P) (rest : List P) : ℚ :=
  rest.foldl (fun m p => min m p.x) v0.x

/-- Maximum over all `x` coordinates (line 240). -/
def bbMaxX (v0 : P) (rest : List P) : ℚ :=
  rest.foldl (fun m p => max m p.x) v0.x

/-- Minimum over all `y` coordinates (line 241). -/
def bbMinY (v0 : P) (rest : List P) : ℚ :=
  rest.foldl (fun m p => min m p.y) v0.y

/-- Maximum over all `y` coordinates (line 242). -/
def bbMaxY (v0 : P) (rest : List P) : ℚ :=
  rest.foldl (fun m p => max m p.y) v0.y

/-- The fixed margin of `extract_image` (line 244). -/
def margin : ℚ := 4

/-- Crop left edge: `((x0 - margin) as i32).clamp(0, width) as u32` (line 245). -/
def cropX0 (v0 : P) (rest : List P) (img : Img) : ℕ :=
  clampNat (truncQ (bbMinX v0 rest - margin)) img.width

/-- Crop right edge (line 246). -/
def cropX1 (v0 : P) (rest : List P) (img : Img) : ℕ :=
  clampNat (truncQ (bbMaxX v0 rest + margin)) img.width

/-- Crop top edge (line 247). -/
def cropY0 (v0 : P) (rest : List P) (img : Img) : ℕ :=
  clampNat (truncQ (bbMinY v0 rest - margin)) img.height

/-- Crop bottom edge (line 248). -/
def cropY1 (v0 : P) (rest : List P) (img : Img) : ℕ :=
  clampNat (truncQ (bbMaxY v0 rest + margin)) img.height

/-- The translated edge list of `extract_image` (lines 250-254): the
polygon is closed by appending the first vertex, and consecutive pairs
become edges with both endpoints translated by `(-x0, -y0)`. -/
def cropEdges (v0 : P) (rest : List P) (img : Img) : List Edge :=
  let closed := (v0 :: rest) ++ [v0]
  (closed.zip closed.tail).map fun q =>
    (q.1.x - (cropX0 v0 rest img : ℚ), q.1.y - (cropY0 v0 rest img : ℚ),
     q.2.x - (cropX0 v0 rest img : ℚ), q.2.y - (cropY0 v0 rest img : ℚ))

/-- The fill color for exterior pixels (line 267). -/
def fillColor : Rgb := ⟨48, 48, 48⟩

/-- The crop raster produced by `extract_image` for a nonempty vertex
list (lines 256-269): a `(x1-x0) × (y1-y0)` image whose pixel `(x, y)`
is the source pixel at `(x0+x, y0+y)` when the ray-parity test says
inside, else the fill color.  `enumerate_pixels_mut` visits the
row-major buffer in order, so each buffer cell `y * w + x` receives the
value for coordinates `(x, y)`. -/
def extractCrop (v0 : P) (rest : List P) (img : Img) : Img :=
  let w := cropX1 v0 rest img - cropX0 v0 rest img
  let h := cropY1 v0 rest img - cropY0 v0 rest img
  let edges := cropEdges v0 rest img
  ⟨w, h,
   (List.range h).flatMap fun (y : ℕ) =>
     (List.range w).map fun (x : ℕ) =>
       if insideEdges edges (↑x) (↑y) then
         img.getPixel (cropX0 v0 rest img + x) (cropY0 v0 rest img + y)
       else fillColor⟩

/-- Model of `MyApp::extract_image` (lines 238-280).  On an empty vertex list the
four `min_by(...).unwrap()` calls panic (`unwrap` of `None`), modelled as
`none`; otherwise the crop raster is produced.  (The function also
JPEG-encodes the crop; the byte encoding is not modelled.) -/
def extract_image (vertexes : List P) (img : Img) : Option Img :=
  match vertexes with
  | [] => none
  | v0 :: rest => some (extractCrop v0 rest img)

/-- A recognized text line (`struct Line`, lines 45-52).  Only the fields
the reconstruction logic reads are modelled: `text`, `left`
(= bounding-box left, normalized) and `mid.y` (bounding-box center `y`);
`points` and `bbox` are carried by the source struct but never read by
sorting or merging. -/
structure Line where
  text : List Char
  left : ℚ
  midY : ℚ
deriving DecidableEq, Repr

/-- Lower indent threshold `min` of `merge_lines` (line 204). -/
def minIndent : ℚ := 8

/-- Upper indent threshold `max` of `merge_lines` (line 205). -/
def maxIndent : ℚ := 40

/-- The paragraph-indent condition of `merge_lines` (lines 201-206): all
three `left` values scaled by the crop-image width, break iff the gap to
the previous and to the next line both lie strictly inside
`(minIndent, maxIndent)`. -/
def paraIndent (w prevLeft curLeft nextLeft : ℚ) : Bool :=
  let x0 := prevLeft * w
  let x1 := curLeft * w
  let x2 := nextLeft * w
  decide (minIndent < x1 - x0 ∧ x1 - x0 < maxIndent ∧
          minIndent < x1 - x2 ∧ x1 - x2 < maxIndent)

/-- The loop body of `MyApp::merge_lines` (lines 188-219), one iteration
per line, carrying the previous line (for the indent test, `lines[i-1]`),
the `dehyphenating` flag and the accumulated output.  The remaining list
plays the role of `lines[i..]`, so its second element is `lines[i+1]`.

- `dehyphenating` with a space in the text: emit the fragment before the
  first space and a newline, and continue with the remainder after the
  space (`start = space + 1`); with no space, the whole text remains.
- not dehyphenating: emit a newline when the indent test fires, which
  requires both a previous and a next line.
- a trailing `'-'` (tested on the full `line.text`) is stripped and sets
  `dehyphenating`; otherwise the remaining text plus a newline is emitted. -/
def merge_go (w : ℚ) : Option Line → Bool → List Char → List Line → List Char
  | _, _, acc, [] => acc
  | prev, dehyph, acc, line :: rest =>
    let t := line.text
    let (acc1, t1) :=
      if dehyph then
        if t.contains ' ' then
          (acc ++ t.takeWhile (· ≠ ' ') ++ ['\n'], (t.dropWhile (· ≠ ' ')).drop 1)
        else (acc, t)
      else
        match prev, rest with
        | some pl, next :: _ =>
          if paraIndent w pl.left line.left next.left then (acc ++ ['\n'], t)
          else (acc, t)
        | _, _ => (acc, t)
    if t.getLast? = some '-' then
      merge_go w (some line) true (acc1 ++ t1.dropLast) rest
    else
      merge_go w (some line) false (acc1 ++ t1 ++ ['\n']) rest

/-- Model of `MyApp::merge_lines` (lines 185-222): fold the loop body over the
lines, starting with no previous line, `dehyphenating = false` and empty
output. -/
def merge_lines (lines : List Line) (image_width : ℚ) : List Char :=
  merge_go image_width none false [] lines

/-- The sort key of `extract_text` (lines 322-326): `mid.y + left / 40`. -/
def sortKey (l : Line) : ℚ :=
  l.midY + l.left / 40

/-- The line ordering of `extract_text`: a stable sort by `sortKey`
(Rust's `sort_by` is stable; `partial_cmp(..).unwrap()` on rationals is
the total order). -/
def sortLines (ls : List Line) : List Line :=
  List.insertionSort (fun a b => sortKey a ≤ sortKey b) ls

/-- Model of `MyApp::extract_text` (lines 282-334), with the recognition service
call abstracted as its result: `ok` carries the recognized lines (the
unmarshalling of service blocks into `Line` values), `error` carries the
service failure's debug description.  On success the lines are sorted and
merged against the crop width; on error the function returns the string
`"Error: "` followed by the failure description (the `format!` at line
331) as the text component.  Both branches return the stored crop image. -/
def extract_text (res : Except (List Char) (List Line)) (cropWidth : ℚ)
    (cropImage : Img) : List Char × Img :=
  match res with
  | .ok lines => (merge_lines (sortLines lines) cropWidth, cropImage)
  | .error err => ("Error: ".toList ++ err, cropImage)

/-- A 10×10 source raster with constant pixel (1,2,3), used as a concrete
source image in witnesses. -/
def testImg : Img := ⟨10, 10, List.replicate 100 ⟨1, 2, 3⟩⟩

/-- An 8×8 source raster whose pixel at flat index `i` is `(i, 0, 0)`, so
distinct positions hold distinct colors. -/
def srcImg8 : Img := ⟨8, 8, (List.range 64).map fun i => ⟨i, 0, 0⟩⟩

/-- A 20×20 all-black source raster, large enough that the 10×10 square
polygon's margin-expanded bounding box clamps to origin 0. -/
def img20 : Img := ⟨20, 20, List.replicate 400 ⟨0, 0, 0⟩⟩

/-- The edge list `extract_image` builds for the square polygon with
vertices (0,0), (10,0), (10,10), (0,10) over `img20`: the crop origin
clamps to `(0,0)`, so the edges are untranslated. -/
def squareEdges : List Edge :=
  cropEdges ⟨0, 0⟩ [⟨10, 0⟩, ⟨10, 10⟩, ⟨0, 10⟩] img20

/-- Claim C2: merging the lines `["This is a hyphen-", "ated word."]`
(the first literally ending in a hyphen) yields exactly
`"This is a hyphenated\nword.\n"`: the trailing hyphen is stripped, the
next line's first word is appended with no separating space, a line break
follows the completed word, and the remainder continues as a new line.
The geometric fields and the crop width are irrelevant here (no indent
test fires), so they are universally quantified. -/
theorem merge_hyphen_example (w la ma lb mb : ℚ) :
    merge_lines [⟨"This is a hyphen-".toList, la, ma⟩,
                 ⟨"ated word.".toList, lb, mb⟩] w
      = "This is a hyphenated\nword.\n".toList := by
  rfl

/-- Claim C5: for every scaler with positive scale and every point,
`image_to_screen` undoes `screen_to_image` exactly (the rational model of
the two affine transforms composes to the identity). -/
theorem scaler_roundtrip (s : Scaler) (p : P) (h : 0 < s.scale) :
    s.image_to_screen (s.screen_to_image p) = p := by
  have hs : s.scale ≠ 0 := ne_of_gt h
  cases p with
  | mk px py =>
    simp only [Scaler.screen_to_image, Scaler.image_to_screen, P.mk.injEq]
    constructor <;> field_simp

/-- Witness for C5: the round trip at scale 1/8, offset (5,-3), viewport
origin (10,20), point (3,7). -/
theorem scaler_roundtrip_witness :
    (0 : ℚ) < 1/8 ∧
      Scaler.image_to_screen ⟨1/8, ⟨1920, 1032⟩, ⟨5, -3⟩, ⟨10, 20⟩⟩
        (Scaler.screen_to_image ⟨1/8, ⟨1920, 1032⟩, ⟨5, -3⟩, ⟨10, 20⟩⟩ ⟨3, 7⟩)
        = ⟨3, 7⟩ :=
  ⟨by norm_num,
   scaler_roundtrip ⟨1/8, ⟨1920, 1032⟩, ⟨5, -3⟩, ⟨10, 20⟩⟩ ⟨3, 7⟩ (by norm_num)⟩

/-- Counterexample for C4: on an empty vertex list, `extract_image` does
not report a recoverable `EmptyRegion` error — it panics (`unwrap` of
`None` from `min_by` over an empty iterator, line 239), modelled as
`none`.  No error value named `EmptyRegion` exists anywhere in the code. -/
theorem extract_image_empty_panics : extract_image [] testImg = none := by
  rfl

/-- Amended C4: on an empty vertex list the Mask Extractor produces no
crop, but it fails by panicking (unwrap of an empty minimum), not by
reporting a recoverable `EmptyRegion` error. -/
theorem extract_image_empty (img : Img) : extract_image [] img = none := by
  rfl

/-- Counterexample for C7: vertices (20,2), (30,2), (25,8) against the
10×10 image clamp to the zero-width box `x0 = x1 = 10`, `y0 = 0`,
`y1 = 10`; `extract_image` does not fail with `DegenerateRegion` — it
returns a 0×10 crop with an empty pixel buffer. -/
theorem extract_image_zero_area :
    extract_image [⟨20, 2⟩, ⟨30, 2⟩, ⟨25, 8⟩] testImg = some ⟨0, 10, []⟩ := by
  decide

/-- Amended C7: a zero-area clamped box is not detected: for every
nonempty vertex list the extractor returns the crop raster
unconditionally (there is no `DegenerateRegion` error), and in the
zero-area case that crop has zero size (its later JPEG encoding of a
zero-dimension image panics in the caller path, outside this model). -/
theorem extract_image_no_degenerate_check :
    (∀ (v0 : P) (rest : List P) (img : Img),
       extract_image (v0 :: rest) img = some (extractCrop v0 rest img)) ∧
      (extractCrop ⟨20, 2⟩ [⟨30, 2⟩, ⟨25, 8⟩] testImg).width = 0 := by
  exact ⟨fun _ _ _ => rfl, by decide⟩

/-- Counterexample for C8: when the recognition service fails with
description `"Throttling"`, `extract_text` does not produce the empty
zero-lines reconstruction — it returns its own formatted message
`"Error: Throttling"` as the reconstructed text. -/
theorem extract_text_error_formats_message :
    (extract_text (.error "Throttling".toList) 1 testImg).1
        = "Error: Throttling".toList ∧
      "Error: Throttling".toList ≠ merge_lines [] 1 := by
  exact ⟨rfl, by decide⟩

/-- Amended C8: when the recognition service returns an error,
`extract_text` returns the string `"Error: "` followed by the failure
description as the reconstructed-text component (together with the stored
crop image); it does not produce the empty reconstruction of zero lines,
and the caller receives the pre-formatted message rather than formatting
the failure itself. -/
theorem extract_text_error (err : List Char) (w : ℚ) (img : Img) :
    extract_text (.error err) w img = ("Error: ".toList ++ err, img) := by
  rfl

/-- Claim C3: for three lines (none hyphenated, so no dehyphenation is in
progress), a paragraph break is emitted immediately before the middle
line exactly when the indent condition `paraIndent` holds — both gaps,
current left minus predecessor left and current left minus successor
left, scaled by the crop width, strictly inside `(8, 40)`; no break ever
appears before the first or after the last line.  In particular, with
crop width 1, left values `0, 25, 0` fire the break while `0, 5, 0` and
`0, 50, 0` do not. -/
theorem merge_paragraph_indent (w l0 l1 l2 m0 m1 m2 : ℚ) :
    merge_lines [⟨"a".toList, l0, m0⟩, ⟨"b".toList, l1, m1⟩, ⟨"c".toList, l2, m2⟩] w
        = "a\n".toList ++ (if paraIndent w l0 l1 l2 = true then "\n".toList else [])
            ++ "b\nc\n".toList
      ∧ paraIndent 1 0 25 0 = true
      ∧ paraIndent 1 0 5 0 = false
      ∧ paraIndent 1 0 50 0 = false := by
  refine ⟨?_, by decide, by decide, by decide⟩
  cases hp : paraIndent w l0 l1 l2 <;>
    simp [merge_lines, merge_go, hp]

/-- Claim C9: during dehyphenation, a line whose text contains no space
is consumed whole: the merge step appends the entire line text (minus
only a trailing hyphen, which by the dehyphenation protocol continues
the word into the following line) and continues with the remaining
lines — a total function, so no panic, and no text is dropped. -/
theorem merge_dehyphenate_no_space (w : ℚ) (prev : Option Line) (line : Line)
    (rest : List Line) (acc : List Char)
    (h : line.text.contains ' ' = false) :
    merge_go w prev true acc (line :: rest) =
      if line.text.getLast? = some '-' then
        merge_go w (some line) true (acc ++ line.text.dropLast) rest
      else
        merge_go w (some line) false (acc ++ line.text ++ ['\n']) rest := by
  have h' : ' ' ∉ line.text := by simpa using h
  simp [merge_go, h']

/-- Witness for C9: the no-space continuation line `"continuation"`
following a line that ended `"pre-"`. -/
theorem merge_dehyphenate_no_space_witness :
    ("continuation".toList.contains ' ' = false) ∧
      merge_go 1 none true "pre".toList [⟨"continuation".toList, 0, 0⟩] =
        (if "continuation".toList.getLast? = some '-' then
          merge_go 1 (some ⟨"continuation".toList, 0, 0⟩) true
            ("pre".toList ++ "continuation".toList.dropLast) []
        else
          merge_go 1 (some ⟨"continuation".toList, 0, 0⟩) false
            ("pre".toList ++ "continuation".toList ++ ['\n']) []) :=
  ⟨by decide,
   merge_dehyphenate_no_space 1 none ⟨"continuation".toList, 0, 0⟩ [] "pre".toList
     (by decide)⟩

/-- The `signum` comparison underlying `ray_intersect`: two signa agree
exactly when the arguments' signs (negative vs. non-negative, with Rust's
`+0.0` counting positive) agree. -/
theorem signum_eq_signum_iff (a b : ℚ) : signum a = signum b ↔ (a < 0 ↔ b < 0) := by
  unfold signum
  split_ifs with h1 h2 h2 <;> norm_num <;> tauto

/-- Characterization of `ray_intersect` as two sign-straddle conditions:
the endpoints' `y` straddle the ray, and the ray origin and `+∞` straddle
the edge line (cross-product sign test). -/
theorem ray_intersect_true_iff (ox oy ax ay bx bY : ℚ) :
    ray_intersect ox oy ax ay bx bY = true ↔
      ¬((ay - oy < 0) ↔ (bY - oy < 0)) ∧
      ¬(((ox - ax) * (bY - ay) + (oy - ay) * (ax - bx) < 0) ↔ (bY - ay < 0)) := by
  rw [ray_intersect]
  split_ifs with h
  · rw [signum_eq_signum_iff] at h
    simp [h]
  · rw [signum_eq_signum_iff] at h
    simp only [ne_eq, decide_eq_true_eq]
    rw [signum_eq_signum_iff]
    tauto

/-- The bottom edge (0,0)--(10,0) of the square is horizontal: the
endpoint `y`-signa always agree, so the ray never crosses it. -/
theorem square_e1 (x y : ℚ) : ray_intersect x y 0 0 10 0 = false := by
  simp [ray_intersect]

/-- The top edge (10,10)--(0,10) of the square is horizontal: never
crossed. -/
theorem square_e3 (x y : ℚ) : ray_intersect x y 10 10 0 10 = false := by
  simp [ray_intersect]

/-- The right edge (10,0)--(10,10): crossed exactly when
`0 < y ≤ 10` and `x < 10`. -/
theorem square_e2 (x y : ℚ) :
    ray_intersect x y 10 0 10 10 = true ↔ (0 < y ∧ y ≤ 10 ∧ x < 10) := by
  rw [ray_intersect_true_iff,
      show (x - 10) * (10 - 0) + (y - 0) * (10 - 10) = 10 * x - 100 from by ring]
  constructor
  · rintro ⟨h1, h2⟩
    refine ⟨?_, ?_, ?_⟩
    · by_contra hy
      exact h1 (by constructor <;> intro <;> linarith)
    · by_contra hy
      exact h1 (by constructor <;> intro <;> linarith)
    · by_contra hx
      exact h2 (by constructor <;> intro <;> linarith)
  · rintro ⟨hy1, hy2, hx⟩
    constructor
    · intro hiff
      have := hiff.mp (by linarith)
      linarith
    · intro hiff
      have := hiff.mp (by linarith)
      linarith

/-- The left edge (0,10)--(0,0): crossed exactly when
`0 < y ≤ 10` and `x ≤ 0`. -/
theorem square_e4 (x y : ℚ) :
    ray_intersect x y 0 10 0 0 = true ↔ (0 < y ∧ y ≤ 10 ∧ x ≤ 0) := by
  rw [ray_intersect_true_iff,
      show (x - 0) * (0 - 10) + (y - 10) * (0 - 0) = -(10 * x) from by ring]
  constructor
  · rintro ⟨h1, h2⟩
    refine ⟨?_, ?_, ?_⟩
    · by_contra hy
      exact h1 (by constructor <;> intro <;> linarith)
    · by_contra hy
      exact h1 (by constructor <;> intro <;> linarith)
    · by_contra hx
      exact h2 (by constructor <;> intro <;> linarith)
  · rintro ⟨hy1, hy2, hx⟩
    constructor
    · intro hiff
      have := hiff.mpr (by linarith)
      linarith
    · intro hiff
      have := hiff.mpr (by linarith)
      linarith

/-- The crossing count for the square polygon: one potential crossing
from the right edge, one from the left edge, horizontal edges never. -/
theorem crossings_square (x y : ℚ) :
    crossings squareEdges x y =
      (if 0 < y ∧ y ≤ 10 ∧ x < 10 then 1 else 0) +
      (if 0 < y ∧ y ≤ 10 ∧ x ≤ 0 then 1 else 0) := by
  have hsq : squareEdges = [(0,0,10,0), (10,0,10,10), (10,10,0,10), (0,10,0,0)] := by
    decide
  rw [crossings, hsq]
  simp only [List.filter_cons, List.filter_nil, square_e1, square_e3,
    Bool.false_eq_true, if_false, square_e2, square_e4]
  split_ifs <;> simp

/-- Claim C6: for the square with vertices (0,0), (10,0), (10,10),
(0,10) — with the edge list exactly as `extract_image` builds it — the
ray-casting parity test classifies every point strictly inside the
square as interior and every point strictly outside its bounding box as
exterior. -/
theorem square_parity_correct (x y : ℚ) :
    ((0 < x ∧ x < 10 ∧ 0 < y ∧ y < 10) → insideEdges squareEdges x y = true) ∧
    ((x < 0 ∨ 10 < x ∨ y < 0 ∨ 10 < y) → insideEdges squareEdges x y = false) := by
  constructor
  · rintro ⟨hx0, hx10, hy0, hy10⟩
    simp only [insideEdges, crossings_square]
    rw [if_pos ⟨hy0, hy10.le, hx10⟩, if_neg (by rintro ⟨-, -, hx⟩; linarith)]
    decide
  · intro hout
    simp only [insideEdges, crossings_square]
    rcases hout with hx | hx | hy | hy
    · by_cases hyy : 0 < y ∧ y ≤ 10
      · rw [if_pos ⟨hyy.1, hyy.2, by linarith⟩, if_pos ⟨hyy.1, hyy.2, by linarith⟩]
        decide
      · rw [if_neg (by rintro ⟨h1, h2, -⟩; exact hyy ⟨h1, h2⟩),
            if_neg (by rintro ⟨h1, h2, -⟩; exact hyy ⟨h1, h2⟩)]
        decide
    · rw [if_neg (by rintro ⟨-, -, h⟩; linarith), if_neg (by rintro ⟨-, -, h⟩; linarith)]
      decide
    · rw [if_neg (by rintro ⟨h, -, -⟩; linarith), if_neg (by rintro ⟨h, -, -⟩; linarith)]
      decide
    · rw [if_neg (by rintro ⟨-, h, -⟩; linarith), if_neg (by rintro ⟨-, h, -⟩; linarith)]
      decide

/-- Witness for C6: the interior point (5,5) is classified inside, and
the point (-1,5), strictly left of the bounding box, outside. -/
theorem square_parity_correct_witness :
    ((0 < (5 : ℚ) ∧ (5 : ℚ) < 10 ∧ 0 < (5 : ℚ) ∧ (5 : ℚ) < 10) ∧
       insideEdges squareEdges 5 5 = true) ∧
    (((-1 : ℚ) < 0 ∨ 10 < (-1 : ℚ) ∨ (5 : ℚ) < 0 ∨ 10 < (5 : ℚ)) ∧
       insideEdges squareEdges (-1) 5 = false) :=
  ⟨⟨by norm_num, (square_parity_correct 5 5).1 (by norm_num)⟩,
   ⟨by norm_num, (square_parity_correct (-1) 5).2 (by norm_num)⟩⟩

/-- Length of the row-major buffer built row by row: `h` rows of `w`
pixels each. -/
theorem flat_length (w : ℕ) (f : ℕ → ℕ → Rgb) :
    ∀ h, (((List.range h).flatMap fun j => (List.range w).map fun i => f i j)).length
      = h * w := by
  intro h
  induction h with
  | zero => simp
  | succ n ih =>
    rw [List.range_succ, List.flatMap_append]
    simp [ih, Nat.succ_mul]

/-- Indexing the row-major buffer at `y * w + x` recovers the pixel
generator at `(x, y)`. -/
theorem flat_getD (w : ℕ) (f : ℕ → ℕ → Rgb) (d : Rgb) :
    ∀ (h x y : ℕ), x < w → y < h →
      (((List.range h).flatMap fun j => (List.range w).map fun i => f i j).getD
        (y * w + x) d) = f x y := by
  intro h
  induction h with
  | zero => intro x y _ hy; exact absurd hy (Nat.not_lt_zero y)
  | succ n ih =>
    intro x y hx hy
    have hidx : y * w + x < (y + 1) * w := by rw [Nat.succ_mul]; omega
    rw [List.range_succ, List.flatMap_append]
    rcases Nat.lt_or_ge y n with hyn | hyn
    · rw [List.getD_eq_getElem?_getD,
        List.getElem?_append_left
          ((flat_length w f n).symm ▸ lt_of_lt_of_le hidx (Nat.mul_le_mul_right w hyn)),
        ← List.getD_eq_getElem?_getD]
      exact ih x y hx hyn
    · have hy_eq : y = n := by omega
      subst hy_eq
      rw [List.getD_eq_getElem?_getD,
        List.getElem?_append_right ((flat_length w f y).symm ▸ Nat.le_add_right _ _)]
      simp [flat_length w f y, List.getElem?_range hx]

/-- Claim C1: for every nonempty vertex list, `extract_image` produces a
crop of size `(x1-x0) × (y1-y0)` — the margin-expanded, clamped bounding
box — and every in-range pixel `(x, y)` of the crop equals the source
pixel at `(x0+x, y0+y)` when the odd-parity crossing count says inside
the (translated) polygon, and the fixed fill color RGB(48,48,48)
otherwise. -/
theorem extract_image_correct (v0 : P) (rest : List P) (img : Img) (x y : ℕ)
    (hx : x < cropX1 v0 rest img - cropX0 v0 rest img)
    (hy : y < cropY1 v0 rest img - cropY0 v0 rest img) :
    extract_image (v0 :: rest) img = some (extractCrop v0 rest img) ∧
    (extractCrop v0 rest img).width = cropX1 v0 rest img - cropX0 v0 rest img ∧
    (extractCrop v0 rest img).height = cropY1 v0 rest img - cropY0 v0 rest img ∧
    (extractCrop v0 rest img).getPixel x y =
      (if crossings (cropEdges v0 rest img) (↑x) (↑y) % 2 = 1 then
        img.getPixel (cropX0 v0 rest img + x) (cropY0 v0 rest img + y)
      else fillColor) := by
  refine ⟨rfl, rfl, rfl, ?_⟩
  have h := flat_getD (cropX1 v0 rest img - cropX0 v0 rest img)
    (fun i j => if insideEdges (cropEdges v0 rest img) (↑i) (↑j) then
        img.getPixel (cropX0 v0 rest img + i) (cropY0 v0 rest img + j)
      else fillColor)
    ⟨0, 0, 0⟩ (cropY1 v0 rest img - cropY0 v0 rest img) x y hx hy
  simpa [Img.getPixel, extractCrop, insideEdges] using h

/-- Witness for C1: the triangle (2,2), (6,2), (4,6) over the 8×8 source
image, at crop pixel (2,3). -/
theorem extract_image_correct_witness :
    ((2 : ℕ) < cropX1 ⟨2, 2⟩ [⟨6, 2⟩, ⟨4, 6⟩] srcImg8
        - cropX0 ⟨2, 2⟩ [⟨6, 2⟩, ⟨4, 6⟩] srcImg8) ∧
    ((3 : ℕ) < cropY1 ⟨2, 2⟩ [⟨6, 2⟩, ⟨4, 6⟩] srcImg8
        - cropY0 ⟨2, 2⟩ [⟨6, 2⟩, ⟨4, 6⟩] srcImg8) ∧
    (extract_image (⟨2, 2⟩ :: [⟨6, 2⟩, ⟨4, 6⟩]) srcImg8
        = some (extractCrop ⟨2, 2⟩ [⟨6, 2⟩, ⟨4, 6⟩] srcImg8) ∧
      (extractCrop ⟨2, 2⟩ [⟨6, 2⟩, ⟨4, 6⟩] srcImg8).width
        = cropX1 ⟨2, 2⟩ [⟨6, 2⟩, ⟨4, 6⟩] srcImg8
          - cropX0 ⟨2, 2⟩ [⟨6, 2⟩, ⟨4, 6⟩] srcImg8 ∧
      (extractCrop ⟨2, 2⟩ [⟨6, 2⟩, ⟨4, 6⟩] srcImg8).height
        = cropY1 ⟨2, 2⟩ [⟨6, 2⟩, ⟨4, 6⟩] srcImg8
          - cropY0 ⟨2, 2⟩ [⟨6, 2⟩, ⟨4, 6⟩] srcImg8 ∧
      (extractCrop ⟨2, 2⟩ [⟨6, 2⟩, ⟨4, 6⟩] srcImg8).getPixel 2 3 =
        (if crossings (cropEdges ⟨2, 2⟩ [⟨6, 2⟩, ⟨4, 6⟩] srcImg8) 2 3 % 2 = 1 then
          srcImg8.getPixel (cropX0 ⟨2, 2⟩ [⟨6, 2⟩, ⟨4, 6⟩] srcImg8 + 2)
            (cropY0 ⟨2, 2⟩ [⟨6, 2⟩, ⟨4, 6⟩] srcImg8 + 3)
        else fillColor)) :=
  ⟨by decide, by decide,
   extract_image_correct ⟨2, 2⟩ [⟨6, 2⟩, ⟨4, 6⟩] srcImg8 2 3 (by decide) (by decide)⟩

/-- The clamp to `[0, hi]` never exceeds `hi`. -/
theorem clampNat_le (n : ℤ) (hi : ℕ) : clampNat n hi ≤ hi := by
  simp only [clampNat, Int.max_def, Int.min_def]
  split_ifs <;> omega

/-- Claim C10: the clamped crop box guarantees in-bounds source access:
for every in-range crop pixel `(x, y)`, the source read at
`(x0 + x, y0 + y)` lies strictly inside the source raster, for every
vertex list (including vertices outside the image bounds). -/
theorem crop_access_in_bounds (v0 : P) (rest : List P) (img : Img) (x y : ℕ)
    (hx : x < cropX1 v0 rest img - cropX0 v0 rest img)
    (hy : y < cropY1 v0 rest img - cropY0 v0 rest img) :
    cropX0 v0 rest img + x < img.width ∧ cropY0 v0 rest img + y < img.height := by
  have h1 : cropX1 v0 rest img ≤ img.width := clampNat_le _ _
  have h2 : cropY1 v0 rest img ≤ img.height := clampNat_le _ _
  omega

/-- Witness for C10: the triangle (2,2), (6,2), (20,6) — its third vertex
outside the 8×8 source image — at crop pixel (5,1). -/
theorem crop_access_in_bounds_witness :
    ((5 : ℕ) < cropX1 ⟨2, 2⟩ [⟨6, 2⟩, ⟨20, 6⟩] srcImg8
        - cropX0 ⟨2, 2⟩ [⟨6, 2⟩, ⟨20, 6⟩] srcImg8) ∧
    ((1 : ℕ) < cropY1 ⟨2, 2⟩ [⟨6, 2⟩, ⟨20, 6⟩] srcImg8
        - cropY0 ⟨2, 2⟩ [⟨6, 2⟩, ⟨20, 6⟩] srcImg8) ∧
    (cropX0 ⟨2, 2⟩ [⟨6, 2⟩, ⟨20, 6⟩] srcImg8 + 5 < srcImg8.width ∧
      cropY0 ⟨2, 2⟩ [⟨6, 2⟩, ⟨20, 6⟩] srcImg8 + 1 < srcImg8.height) :=
  ⟨by decide, by decide,
   crop_access_in_bounds ⟨2, 2⟩ [⟨6, 2⟩, ⟨20, 6⟩] srcImg8 5 1 (by decide) (by decide)⟩
